import Mathlib

/-!
Verification of the attention kernel in
`onmt/modules/seq_hre_word_global_attention.py` (class `SeqHREWordGlobalAttention`).

The embedding uses exact rational arithmetic for the float tensors.  The two
analytic nonlinearities used by the module (`exp` inside `F.softmax`, and
`torch.tanh`) are external primitives (spec section 6), so they are threaded as an
abstract `Prims` record; every theorem below holds for an arbitrary primitive
record, with the positivity of `exp` as the only assumption where it is needed.
Tensors are modelled as total functions from indices together with their
recorded sizes, so that the module's explicit shape assertions (`aeq`) remain
meaningful.  Division is exact rational division (`x / 0 = 0`), whereas the
program's float division turns a whole row into NaN when the renormalization
denominator is 0; the results below therefore never rest on the quotient's
value at a zero denominator: they either assume the denominator nonzero, or
concern rows where the program agrees, or exhibit the zero-denominator `0/0`
condition itself as the program-level NaN evaluation.
-/

/-- Rank-3 float tensor `(d1, d2, d3)`; values outside the recorded extent are
irrelevant junk carried by the total function. -/
structure Tensor3 where
  d1 : ℕ
  d2 : ℕ
  d3 : ℕ
  val : ℕ → ℕ → ℕ → ℚ

/-- Rank-2 float tensor `(d1, d2)`. -/
structure Tensor2 where
  d1 : ℕ
  d2 : ℕ
  val : ℕ → ℕ → ℚ

/-- LongTensor vector of per-batch source lengths `(batch,)`. -/
structure LenVec where
  d1 : ℕ
  val : ℕ → ℕ

/-- Integer matrix `(batch, src_len)` assigning each source word its coarse
(sentence) unit id; padded positions carry id 0 by convention. -/
structure IdxMat where
  d1 : ℕ
  d2 : ℕ
  val : ℕ → ℕ → ℕ

/-- Scoring strategy, fixed at construction (`attn_type`). -/
inductive AttnType where
  | dot : AttnType
  | general : AttnType
  | mlp : AttnType
deriving DecidableEq

/-- Normalization function, fixed at construction (`attn_func`). -/
inductive AttnFunc where
  | softmax : AttnFunc
  | sparsemax : AttnFunc
deriving DecidableEq

/-- Construction-time state of the module: configuration flags plus the learned
parameter tensors (`linear_in`, `linear_context`, `linear_query`, `v`,
`linear_out`, `linear_cover`), each modelled as its weight function.
`linear_query_b` and `linear_out_b` are the bias vectors; `linear_out_b` is
only used by the `mlp` strategy, matching `out_bias = attn_type == mlp`. -/
structure SeqHREWordGlobalAttention where
  dim : ℕ
  attn_type : AttnType
  attn_func : AttnFunc
  output_attn_h : Bool
  seqHRE_attn_rescale : Bool
  linear_in : ℕ → ℕ → ℚ
  linear_context : ℕ → ℕ → ℚ
  linear_query_w : ℕ → ℕ → ℚ
  linear_query_b : ℕ → ℚ
  v : ℕ → ℚ
  linear_out_w : ℕ → ℕ → ℚ
  linear_out_b : ℕ → ℚ
  linear_cover : ℕ → ℚ

/-- External scalar nonlinearities (spec section 6): the exponential used by the
row-wise softmax and the elementwise `tanh`. -/
structure Prims where
  exp : ℚ → ℚ
  tanh : ℚ → ℚ

/-- The `source` argument of `forward`: a 2D query (one-step mode) or a 3D query
sequence (multi-step mode); `forward` dispatches on the rank (`source.dim()`). -/
inductive QueryIn where
  | q2 : Tensor2 → QueryIn
  | q3 : Tensor3 → QueryIn

/-- The `utr_align_vectors` argument: `(batch, s_num)` for one step or
`(batch, tgt_len, s_num)`, unsqueezed to rank 3 when 2D. -/
inductive UtrIn where
  | u2 : Tensor2 → UtrIn
  | u3 : Tensor3 → UtrIn

/-- Fatal call-time failures of `forward`, in source order: the attribute error
from `utr_align_vectors.dim()` on `None` (line 172), the missing-lengths assert
(line 185), an `aeq` shape-assertion failure carrying the compared values, the
unpack failure on `src_word_utr_ids = None` in the rescaling path (line 214),
the lengths-consistency assert (lines 215-216), and an out-of-range
`torch.gather` index (line 223). -/
inductive AttnErr where
  | noneUtr : AttnErr
  | missingLengths : AttnErr
  | shapeMismatch : List ℕ → AttnErr
  | missingUtrIds : AttnErr
  | inconsistentLengths : AttnErr
  | gatherIndexOOB : AttnErr
deriving DecidableEq

/-- Successful result of `forward`: in one-step mode the context and
distribution are squeezed to rank 2; in multi-step mode they are transposed to
step-major `(tgt_len, batch, ...)`.  `bank` is the caller's `memory_bank`
buffer after the call (it is mutated in place by coverage injection). -/
inductive FwdOut where
  | oneStep : (ℕ → ℕ → ℚ) → Option (ℕ → ℕ → ℚ) → (ℕ → ℕ → ℚ) → (ℕ → ℕ → ℕ → ℚ) → FwdOut
  | multiStep : (ℕ → ℕ → ℕ → ℚ) → Option (ℕ → ℕ → ℕ → ℚ) → (ℕ → ℕ → ℕ → ℚ) → (ℕ → ℕ → ℕ → ℚ) → FwdOut

/-- Mode-uniform accessor for the context vector: `(t, b, d)` entry. -/
def FwdOut.cVal : FwdOut → ℕ → ℕ → ℕ → ℚ
  | FwdOut.oneStep c _ _ _, _, b, d => c b d
  | FwdOut.multiStep c _ _ _, t, b, d => c t b d

/-- Mode-uniform accessor for the attention distribution: `(t, b, s)` entry. -/
def FwdOut.alignVal : FwdOut → ℕ → ℕ → ℕ → ℚ
  | FwdOut.oneStep _ _ a _, _, b, s => a b s
  | FwdOut.multiStep _ _ a _, t, b, s => a t b s

/-- Accessor for the caller's source-bank buffer after the call. -/
def FwdOut.bankVal : FwdOut → ℕ → ℕ → ℕ → ℚ
  | FwdOut.oneStep _ _ _ bk, b, s, d => bk b s d
  | FwdOut.multiStep _ _ _ bk, b, s, d => bk b s d

/-- Promotion of the query to rank 3 (`source.unsqueeze(1)` for one-step). -/
def q3of : QueryIn → Tensor3
  | QueryIn.q2 q => ⟨q.d1, 1, q.d2, fun b _ d => q.val b d⟩
  | QueryIn.q3 q => q

/-- Whether the call is in one-step mode (`source.dim() == 2`). -/
def isOneStep : QueryIn → Bool
  | QueryIn.q2 _ => true
  | QueryIn.q3 _ => false

/-- Promotion of `utr_align_vectors` to rank 3 (`unsqueeze(1)` when 2D). -/
def utr3of : UtrIn → Tensor3
  | UtrIn.u2 u => ⟨u.d1, 1, u.d2, fun b _ k => u.val b k⟩
  | UtrIn.u3 u => u

/-- Rank-3 view of the optional `utr_align_vectors` (junk when absent; absence
is rejected before the value is ever read). -/
def theUtr3 : Option UtrIn → Tensor3
  | none => ⟨0, 0, 0, fun _ _ _ => 0⟩
  | some u => utr3of u

/-- Value of the optional `memory_lengths` (junk when absent; absence is
rejected before the value is ever read). -/
def theLen : Option LenVec → LenVec
  | none => ⟨0, fun _ => 0⟩
  | some l => l

/-- Value of the optional `src_word_utr_ids` pair (junk when absent; absence is
rejected, in the rescaling path, before the value is ever read). -/
def theIds : Option (IdxMat × LenVec) → IdxMat × LenVec
  | none => (⟨0, 0, fun _ _ => 0⟩, ⟨0, fun _ => 0⟩)
  | some p => p

/-- Row index of the internal rank-3 pipeline addressed by a mode-uniform
output index `t`: one-step outputs come from the single internal row 0. -/
def tIdx : QueryIn → ℕ → ℕ
  | QueryIn.q2 _, _ => 0
  | QueryIn.q3 _, t => t

/-- Whether an `Except` result is an error (the Python call raised). -/
def isErr {ε α : Type} : Except ε α → Bool
  | Except.error _ => true
  | Except.ok _ => false

/-- All listed values are equal (the condition checked by `aeq`). -/
def allEqList : List ℕ → Bool
  | [] => true
  | x :: xs => xs.all fun y => x == y

/-- Modelled from the spec: the shape-equality assertion utility `aeq`
(`onmt.utils.misc`, not under src/) fails loudly when its arguments differ,
reporting the compared values (spec section 6).  `aeqCheck vs k` asserts, then
continues with `k`. -/
def aeqCheck (vs : List ℕ) (k : Except AttnErr Unit) : Except AttnErr Unit :=
  if allEqList vs then k else Except.error (AttnErr.shapeMismatch vs)

/-- Shape checks on the optional `coverage` argument (forward lines 187-190). -/
def coverChecks (mb : Tensor3) (cov : Option Tensor2) (k : Except AttnErr Unit) :
    Except AttnErr Unit :=
  match cov with
  | none => k
  | some cv => aeqCheck [mb.d1, cv.d1] (aeqCheck [mb.d2, cv.d2] k)

/-- Checks of the hierarchical-rescaling path (forward lines 213-223): unpack
`src_word_utr_ids`, assert its length vector agrees elementwise with
`memory_lengths`, and require every gathered unit id to be in range for
`utr_align_vectors` (`torch.gather` raises on an out-of-range index). -/
def rescaleChecks (cfg : SeqHREWordGlobalAttention) (mb : Tensor3) (utr3 : Tensor3)
    (mlen : LenVec) (ids : Option (IdxMat × LenVec)) : Except AttnErr Unit :=
  if cfg.seqHRE_attn_rescale then
    match ids with
    | none => Except.error AttnErr.missingUtrIds
    | some p =>
        if ∀ b ∈ Finset.range mb.d1, mlen.val b = p.2.val b then
          if ∀ b ∈ Finset.range mb.d1, ∀ s ∈ Finset.range mb.d2, p.1.val b s < utr3.d3 then
            Except.ok ()
          else Except.error AttnErr.gatherIndexOOB
        else Except.error AttnErr.inconsistentLengths
  else Except.ok ()

/-- Raw attention scores (`score`, lines 119-140), `(batch, tgt_len, src_len)`
entrywise.  `dot` contracts query and source over the feature axis; `general`
first transforms the query by `linear_in` (`y = W x`, no bias); `mlp` computes
`v . tanh(linear_query q + linear_context h)`.  The `aeq` checks performed at
the top of `score` appear in `forwardChecks` below. -/
def score (cfg : SeqHREWordGlobalAttention) (pr : Prims) (h_t h_s : Tensor3) :
    ℕ → ℕ → ℕ → ℚ := fun b t s =>
  match cfg.attn_type with
  | AttnType.dot => ∑ d in Finset.range cfg.dim, h_t.val b t d * h_s.val b s d
  | AttnType.general =>
      ∑ d in Finset.range cfg.dim,
        (∑ j in Finset.range cfg.dim, cfg.linear_in d j * h_t.val b t j) * h_s.val b s d
  | AttnType.mlp =>
      ∑ d in Finset.range cfg.dim,
        cfg.v d * pr.tanh
          ((∑ j in Finset.range cfg.dim, cfg.linear_query_w d j * h_t.val b t j)
            + cfg.linear_query_b d
            + (∑ j in Finset.range cfg.dim, cfg.linear_context d j * h_s.val b s j))

/-- Modelled from the spec: the external mask builder `sequence_mask`
(`onmt.utils.misc`, not under src/) marks position `s` of a row of width
`src_len` valid iff `s < len` (spec section 6). -/
def validSet (src_len len : ℕ) : Finset ℕ :=
  (Finset.range src_len).filter fun s => s < len

/-- Row-wise softmax after `masked_fill_(~mask, -inf)` (lines 204-208), in
exact real semantics: an entry `-inf` contributes weight exactly 0, and a valid
entry gets `exp s_i / sum of exp over valid entries`.  A fully masked row is
all-zero, the behavior the spec fixes for length-0 rows (spec section 4.3);
`F.softmax` itself is external library code. -/
def maskedSoftmaxRow (e : ℚ → ℚ) (src_len len : ℕ) (f : ℕ → ℚ) : ℕ → ℚ := fun s =>
  if s ∈ validSet src_len len then
    e (f s) / ∑ j in validSet src_len len, e (f j)
  else 0

/-- Valid positions carrying the maximal masked score (the support of the
sparse normalizer modelled below). -/
def sparseSupport (src_len len : ℕ) (f : ℕ → ℚ) : Finset ℕ :=
  (validSet src_len len).filter fun s => ∀ j ∈ validSet src_len len, f j ≤ f s

/-- Modelled from the spec: `sparsemax` (`onmt.modules.sparse_activations`, not
under src/) is a row-wise normalization producing a probability distribution
with exact zeros on low-scoring entries, and an all-zero row when everything is
masked (spec sections 4.3 and 6).  It is modelled as the uniform distribution
over the maximal valid entries. -/
def maskedSparsemaxRow (src_len len : ℕ) (f : ℕ → ℚ) : ℕ → ℚ := fun s =>
  if s ∈ sparseSupport src_len len f then 1 / (sparseSupport src_len len f).card else 0

/-- Masked normalization of one score row, dispatching on `attn_func`
(lines 206-210). -/
def maskedNormRow (cfg : SeqHREWordGlobalAttention) (pr : Prims) (src_len len : ℕ)
    (f : ℕ → ℚ) : ℕ → ℚ :=
  match cfg.attn_func with
  | AttnFunc.softmax => maskedSoftmaxRow pr.exp src_len len f
  | AttnFunc.sparsemax => maskedSparsemaxRow src_len len f

/-- Projection of the coverage accumulator into feature space
(`linear_cover(cover.view(-1, 1)).view_as(memory_bank)`, line 194). -/
def coverProj (cfg : SeqHREWordGlobalAttention) (cov : Tensor2) : ℕ → ℕ → ℕ → ℚ :=
  fun b s d => cfg.linear_cover d * cov.val b s

/-- The caller's `memory_bank` buffer after the call: the in-place
`memory_bank += linear_cover(...)` (line 194) adds the coverage projection; the
subsequent `tanh` rebinds the local name and does not touch the buffer. -/
def bankAfter (cfg : SeqHREWordGlobalAttention) (bank : Tensor3) :
    Option Tensor2 → Tensor3
  | none => bank
  | some cov => ⟨bank.d1, bank.d2, bank.d3,
      fun b s d => bank.val b s d + coverProj cfg cov b s d⟩

/-- The effective source bank used for scoring and for the context sum:
`tanh(memory_bank + linear_cover(coverage))` when coverage is supplied
(lines 192-195), the untouched bank otherwise. -/
def effBank (cfg : SeqHREWordGlobalAttention) (pr : Prims) (bank : Tensor3) :
    Option Tensor2 → Tensor3
  | none => bank
  | some cov => ⟨bank.d1, bank.d2, bank.d3,
      fun b s d => pr.tanh (bank.val b s d + coverProj cfg cov b s d)⟩

/-- Word-level attention distribution before hierarchical rescaling: scores,
then length masking and row-wise normalization (lines 199-211). -/
def alignPre (cfg : SeqHREWordGlobalAttention) (pr : Prims) (q3 ebank : Tensor3)
    (mlen : LenVec) : ℕ → ℕ → ℕ → ℚ := fun b t s =>
  maskedNormRow cfg pr ebank.d2 (mlen.val b) (score cfg pr q3 ebank b t) s

/-- `utr_align_vectors.gather(dim=-1, index=word_utr_ids)` after expanding the
ids over target steps (lines 222-223): position `s` receives the coarse weight
of its unit. -/
def gatherUtr (utr3 : Tensor3) (wui : IdxMat) : ℕ → ℕ → ℕ → ℚ :=
  fun b t s => utr3.val b t (wui.val b s)

/-- Multiply-and-renormalize of the word distribution by the gathered coarse
weights (lines 227-229): `align * g / sum(align * g)`.  The division is exact
rational division, so an entry with zero denominator evaluates to 0 here; the
program's float division instead makes the whole row NaN in that case (every
numerator is then 0 of a 0 sum in the reachable inputs below, i.e. IEEE
`0/0`).  A zero denominator is thus the program-level NaN condition: theorems
that assert normalized rescaled values assume it nonzero, and where it does
occur the development confines itself to conclusions the program shares (zero
numerators, a zero denominator sum, a row sum that fails to be 1) rather than
the quotient's collapsed value. -/
def rescaleAlign (aPre g : ℕ → ℕ → ℕ → ℚ) (src_len : ℕ) : ℕ → ℕ → ℕ → ℚ :=
  fun b t s =>
    aPre b t s * g b t s / ∑ j in Finset.range src_len, aPre b t j * g b t j

/-- Attention distribution actually used for the context sum: the rescaled
distribution when `seqHRE_attn_rescale` is set, the masked-normalized one
otherwise (lines 213-229). -/
def alignFull (cfg : SeqHREWordGlobalAttention) (pr : Prims) (q3 ebank : Tensor3)
    (mlen : LenVec) (utr3 : Tensor3) (idp : IdxMat × LenVec) : ℕ → ℕ → ℕ → ℚ :=
  fun b t s =>
    if cfg.seqHRE_attn_rescale then
      rescaleAlign (alignPre cfg pr q3 ebank mlen) (gatherUtr utr3 idp.1) ebank.d2 b t s
    else alignPre cfg pr q3 ebank mlen b t s

/-- Context vectors `c = bmm(align_vectors, memory_bank)` (line 234). -/
def contextVal (alignF : ℕ → ℕ → ℕ → ℚ) (ebank : Tensor3) : ℕ → ℕ → ℕ → ℚ :=
  fun b t d => ∑ s in Finset.range ebank.d2, alignF b t s * ebank.val b s d

/-- Optional output projection (lines 238-243): `linear_out [c; source]`, with
bias only for `mlp`, then `tanh` only for `dot` and `general`. -/
def attnHVal (cfg : SeqHREWordGlobalAttention) (pr : Prims) (c : ℕ → ℕ → ℕ → ℚ)
    (q3 : Tensor3) : ℕ → ℕ → ℕ → ℚ := fun b t d =>
  let lin :=
    (∑ j in Finset.range (2 * cfg.dim),
      cfg.linear_out_w d j * (if j < cfg.dim then c b t j else q3.val b t (j - cfg.dim)))
    + (match cfg.attn_type with
       | AttnType.mlp => cfg.linear_out_b d
       | _ => 0)
  match cfg.attn_type with
  | AttnType.mlp => lin
  | _ => pr.tanh lin

/-- All fatal checks of a `forward` call, in exact source order: the attribute
access on `utr_align_vectors` (line 172), the four `aeq` shape assertions
(lines 178-181), the missing-lengths assert (line 185), the coverage shape
checks (lines 187-190), the `aeq` assertions inside `score` (lines 112-117),
and the rescaling-path checks (lines 213-223). -/
def forwardChecks (cfg : SeqHREWordGlobalAttention) (source : QueryIn) (mb : Tensor3)
    (mlens : Option LenVec) (cov : Option Tensor2) (utr : Option UtrIn)
    (ids : Option (IdxMat × LenVec)) : Except AttnErr Unit :=
  match utr with
  | none => Except.error AttnErr.noneUtr
  | some u =>
      let q3 := q3of source
      let utr3 := utr3of u
      aeqCheck [mb.d1, q3.d1, utr3.d1]
        (aeqCheck [mb.d3, q3.d3]
          (aeqCheck [cfg.dim, mb.d3]
            (aeqCheck [q3.d2, utr3.d2]
              (match mlens with
               | none => Except.error AttnErr.missingLengths
               | some mlen =>
                   coverChecks mb cov
                     (aeqCheck [mb.d1, q3.d1]
                       (aeqCheck [mb.d3, q3.d3]
                         (aeqCheck [cfg.dim, mb.d3]
                           (rescaleChecks cfg mb utr3 mlen ids))))))))

/-- The value computed by a `forward` call that passed all checks, shaped for
the detected mode: one-step squeezes the single target step, multi-step
transposes to step-major. -/
def forwardResult (cfg : SeqHREWordGlobalAttention) (pr : Prims) (source : QueryIn)
    (mb : Tensor3) (mlens : Option LenVec) (cov : Option Tensor2) (utr : Option UtrIn)
    (ids : Option (IdxMat × LenVec)) : FwdOut :=
  let q3 := q3of source
  let ebank := effBank cfg pr mb cov
  let alignF := alignFull cfg pr q3 ebank (theLen mlens) (theUtr3 utr) (theIds ids)
  let c := contextVal alignF ebank
  let aH : Option (ℕ → ℕ → ℕ → ℚ) :=
    if cfg.output_attn_h then some (attnHVal cfg pr c q3) else none
  match source with
  | QueryIn.q2 _ =>
      FwdOut.oneStep (fun b d => c b 0 d) (aH.map fun f => fun b d => f b 0 d)
        (fun b s => alignF b 0 s) (bankAfter cfg mb cov).val
  | QueryIn.q3 _ =>
      FwdOut.multiStep (fun t b d => c b t d) (aH.map fun f => fun t b d => f b t d)
        (fun t b s => alignF b t s) (bankAfter cfg mb cov).val

/-- The `forward` method (lines 142-276): run all fatal checks in source order,
then produce the mode-shaped context, optional attended hidden state, attention
distribution, and the post-call state of the caller's `memory_bank` buffer. -/
def forward (cfg : SeqHREWordGlobalAttention) (pr : Prims) (source : QueryIn)
    (mb : Tensor3) (mlens : Option LenVec) (cov : Option Tensor2) (utr : Option UtrIn)
    (ids : Option (IdxMat × LenVec)) : Except AttnErr FwdOut :=
  match forwardChecks cfg source mb mlens cov utr ids with
  | Except.error e => Except.error e
  | Except.ok _ => Except.ok (forwardResult cfg pr source mb mlens cov utr ids)

/-! ## Basic inversion and row-level lemmas -/

lemma mem_validSet {src_len len s : ℕ} :
    s ∈ validSet src_len len ↔ s < src_len ∧ s < len := by
  simp [validSet]

lemma validSet_subset (src_len len : ℕ) : validSet src_len len ⊆ Finset.range src_len :=
  Finset.filter_subset _ _

lemma sparseSupport_subset (src_len len : ℕ) (f : ℕ → ℚ) :
    sparseSupport src_len len f ⊆ validSet src_len len :=
  Finset.filter_subset _ _

lemma maskedNormRow_eq_zero (cfg : SeqHREWordGlobalAttention) (pr : Prims)
    (src_len len : ℕ) (f : ℕ → ℚ) (s : ℕ) (hs : s ∉ validSet src_len len) :
    maskedNormRow cfg pr src_len len f s = 0 := by
  unfold maskedNormRow maskedSoftmaxRow maskedSparsemaxRow
  cases cfg.attn_func with
  | softmax => simp [hs]
  | sparsemax =>
      have h : s ∉ sparseSupport src_len len f := fun h => hs (sparseSupport_subset _ _ _ h)
      simp [h]

lemma maskedNormRow_nonneg (cfg : SeqHREWordGlobalAttention) (pr : Prims)
    (src_len len : ℕ) (f : ℕ → ℚ) (s : ℕ) (he : ∀ x, 0 < pr.exp x) :
    0 ≤ maskedNormRow cfg pr src_len len f s := by
  unfold maskedNormRow maskedSoftmaxRow maskedSparsemaxRow
  cases cfg.attn_func with
  | softmax =>
      by_cases hs : s ∈ validSet src_len len
      · have hD : 0 < ∑ j in validSet src_len len, pr.exp (f j) :=
          Finset.sum_pos (fun j _ => he (f j)) ⟨s, hs⟩
        simp only [hs, if_true]
        exact div_nonneg (he (f s)).le hD.le
      · simp [hs]
  | sparsemax =>
      by_cases hs : s ∈ sparseSupport src_len len f
      · simp only [hs, if_true]
        exact div_nonneg zero_le_one (Nat.cast_nonneg _)
      · simp [hs]

lemma maskedNormRow_sum_one (cfg : SeqHREWordGlobalAttention) (pr : Prims)
    (src_len len : ℕ) (f : ℕ → ℚ) (he : ∀ x, 0 < pr.exp x)
    (hne : (validSet src_len len).Nonempty) :
    ∑ s in validSet src_len len, maskedNormRow cfg pr src_len len f s = 1 := by
  unfold maskedNormRow maskedSoftmaxRow maskedSparsemaxRow
  cases cfg.attn_func with
  | softmax =>
      have hD : 0 < ∑ j in validSet src_len len, pr.exp (f j) :=
        Finset.sum_pos (fun j _ => he (f j)) hne
      rw [Finset.sum_congr rfl fun s hs => if_pos hs, ← Finset.sum_div]
      exact div_self hD.ne'
  | sparsemax =>
      obtain ⟨m, hmV, hmax⟩ := Finset.exists_max_image (validSet src_len len) f hne
      have hmS : m ∈ sparseSupport src_len len f := by
        simp only [sparseSupport, Finset.mem_filter]
        exact ⟨hmV, hmax⟩
      have hsub := sparseSupport_subset src_len len f
      have hcard : 0 < (sparseSupport src_len len f).card := Finset.card_pos.2 ⟨m, hmS⟩
      rw [← Finset.sum_subset hsub fun x _ hx => by simp [hx]]
      rw [Finset.sum_congr rfl fun s hs => if_pos hs, Finset.sum_const, nsmul_eq_mul,
        mul_one_div]
      exact div_self (by exact_mod_cast hcard.ne')

lemma alignPre_eq_zero (cfg : SeqHREWordGlobalAttention) (pr : Prims) (q3 ebank : Tensor3)
    (mlen : LenVec) (b t s : ℕ) (hs : s ∉ validSet ebank.d2 (mlen.val b)) :
    alignPre cfg pr q3 ebank mlen b t s = 0 :=
  maskedNormRow_eq_zero _ _ _ _ _ _ hs

lemma alignPre_nonneg (cfg : SeqHREWordGlobalAttention) (pr : Prims) (q3 ebank : Tensor3)
    (mlen : LenVec) (b t s : ℕ) (he : ∀ x, 0 < pr.exp x) :
    0 ≤ alignPre cfg pr q3 ebank mlen b t s :=
  maskedNormRow_nonneg _ _ _ _ _ _ he

lemma alignFull_eq_zero (cfg : SeqHREWordGlobalAttention) (pr : Prims) (q3 ebank : Tensor3)
    (mlen : LenVec) (utr3 : Tensor3) (idp : IdxMat × LenVec) (b t s : ℕ)
    (hs : s ∉ validSet ebank.d2 (mlen.val b)) :
    alignFull cfg pr q3 ebank mlen utr3 idp b t s = 0 := by
  have h0 : alignPre cfg pr q3 ebank mlen b t s = 0 := alignPre_eq_zero _ _ _ _ _ _ _ _ hs
  unfold alignFull rescaleAlign
  split
  · rw [h0, zero_mul, zero_div]
  · exact h0

lemma alignFull_sum_one (cfg : SeqHREWordGlobalAttention) (pr : Prims) (q3 ebank : Tensor3)
    (mlen : LenVec) (utr3 : Tensor3) (idp : IdxMat × LenVec) (b t : ℕ)
    (he : ∀ x, 0 < pr.exp x)
    (hne : (validSet ebank.d2 (mlen.val b)).Nonempty)
    (hnz : cfg.seqHRE_attn_rescale = true →
      (∑ j in Finset.range ebank.d2,
        alignPre cfg pr q3 ebank mlen b t j * gatherUtr utr3 idp.1 b t j) ≠ 0) :
    ∑ s in validSet ebank.d2 (mlen.val b),
      alignFull cfg pr q3 ebank mlen utr3 idp b t s = 1 := by
  unfold alignFull
  by_cases hr : cfg.seqHRE_attn_rescale
  · simp only [hr, if_true]
    unfold rescaleAlign
    rw [← Finset.sum_div]
    have hsum : ∑ s in validSet ebank.d2 (mlen.val b),
        alignPre cfg pr q3 ebank mlen b t s * gatherUtr utr3 idp.1 b t s =
        ∑ j in Finset.range ebank.d2,
          alignPre cfg pr q3 ebank mlen b t j * gatherUtr utr3 idp.1 b t j := by
      refine Finset.sum_subset (validSet_subset _ _) fun x _ hxn => ?_
      rw [alignPre_eq_zero _ _ _ _ _ _ _ _ hxn, zero_mul]
    rw [hsum]
    exact div_self (hnz hr)
  · simp only [hr, if_false]
    exact maskedNormRow_sum_one _ _ _ _ _ he hne

lemma validSet_zero (src_len : ℕ) : validSet src_len 0 = ∅ := by
  ext s
  simp [validSet]

lemma forward_ok_checks {cfg : SeqHREWordGlobalAttention} {pr : Prims} {src : QueryIn}
    {mb : Tensor3} {mlens : Option LenVec} {cov : Option Tensor2} {utr : Option UtrIn}
    {ids : Option (IdxMat × LenVec)} {out : FwdOut}
    (h : forward cfg pr src mb mlens cov utr ids = Except.ok out) :
    forwardChecks cfg src mb mlens cov utr ids = Except.ok () := by
  cases hc : forwardChecks cfg src mb mlens cov utr ids with
  | error e => simp [forward, hc] at h
  | ok u => cases u; rfl

lemma forward_ok_result {cfg : SeqHREWordGlobalAttention} {pr : Prims} {src : QueryIn}
    {mb : Tensor3} {mlens : Option LenVec} {cov : Option Tensor2} {utr : Option UtrIn}
    {ids : Option (IdxMat × LenVec)} {out : FwdOut}
    (h : forward cfg pr src mb mlens cov utr ids = Except.ok out) :
    out = forwardResult cfg pr src mb mlens cov utr ids := by
  cases hc : forwardChecks cfg src mb mlens cov utr ids with
  | error e => simp [forward, hc] at h
  | ok u =>
      simp only [forward, hc] at h
      exact (Except.ok.inj h).symm

lemma forwardResult_alignVal (cfg : SeqHREWordGlobalAttention) (pr : Prims) (src : QueryIn)
    (mb : Tensor3) (mlens : Option LenVec) (cov : Option Tensor2) (utr : Option UtrIn)
    (ids : Option (IdxMat × LenVec)) (t b s : ℕ) :
    (forwardResult cfg pr src mb mlens cov utr ids).alignVal t b s =
      alignFull cfg pr (q3of src) (effBank cfg pr mb cov) (theLen mlens) (theUtr3 utr)
        (theIds ids) b (tIdx src t) s := by
  cases src <;> rfl

lemma forwardResult_cVal (cfg : SeqHREWordGlobalAttention) (pr : Prims) (src : QueryIn)
    (mb : Tensor3) (mlens : Option LenVec) (cov : Option Tensor2) (utr : Option UtrIn)
    (ids : Option (IdxMat × LenVec)) (t b d : ℕ) :
    (forwardResult cfg pr src mb mlens cov utr ids).cVal t b d =
      contextVal
        (alignFull cfg pr (q3of src) (effBank cfg pr mb cov) (theLen mlens) (theUtr3 utr)
          (theIds ids)) (effBank cfg pr mb cov) b (tIdx src t) d := by
  cases src <;> rfl

lemma forwardResult_bankVal (cfg : SeqHREWordGlobalAttention) (pr : Prims) (src : QueryIn)
    (mb : Tensor3) (mlens : Option LenVec) (cov : Option Tensor2) (utr : Option UtrIn)
    (ids : Option (IdxMat × LenVec)) (b s d : ℕ) :
    (forwardResult cfg pr src mb mlens cov utr ids).bankVal b s d =
      (bankAfter cfg mb cov).val b s d := by
  cases src <;> rfl

lemma effBank_d2 (cfg : SeqHREWordGlobalAttention) (pr : Prims) (mb : Tensor3)
    (cov : Option Tensor2) : (effBank cfg pr mb cov).d2 = mb.d2 := by
  cases cov <;> rfl

lemma allEqList_two {a b : ℕ} : allEqList [a, b] = true ↔ a = b := by
  simp [allEqList]

lemma allEqList_three {a b c : ℕ} : allEqList [a, b, c] = true ↔ a = b ∧ a = c := by
  simp [allEqList]

lemma allEqList_false_pair {vs : List ℕ} (h : allEqList vs = false) :
    ∃ x ∈ vs, ∃ y ∈ vs, x ≠ y := by
  cases vs with
  | nil => simp [allEqList] at h
  | cons x xs =>
      have h' : ¬∀ y ∈ xs, x = y := by
        intro hall
        have hx : (xs.all fun y => x == y) = true := by
          rw [List.all_eq_true]
          intro y hy
          simp [hall y hy]
        rw [show allEqList (x :: xs) = xs.all fun y => x == y from rfl, hx] at h
        cases h
      push_neg at h'
      obtain ⟨y, hy, hne⟩ := h'
      exact ⟨x, List.mem_cons_self _ _, y, List.mem_cons_of_mem _ hy, hne⟩

lemma aeqCheck_ok {vs : List ℕ} {k : Except AttnErr Unit} {x : Unit}
    (h : aeqCheck vs k = Except.ok x) : k = Except.ok x := by
  unfold aeqCheck at h
  split at h
  · exact h
  · cases h

lemma coverChecks_ok {mb : Tensor3} {cov : Option Tensor2} {k : Except AttnErr Unit}
    {x : Unit} (h : coverChecks mb cov k = Except.ok x) : k = Except.ok x := by
  cases cov with
  | none => exact h
  | some cv => exact aeqCheck_ok (aeqCheck_ok h)

lemma rescaleChecks_ok {cfg : SeqHREWordGlobalAttention} {mb utr3 : Tensor3}
    {mlen : LenVec} {p : IdxMat × LenVec} (hres : cfg.seqHRE_attn_rescale = true)
    (h : rescaleChecks cfg mb utr3 mlen (some p) = Except.ok ()) :
    (∀ b ∈ Finset.range mb.d1, mlen.val b = p.2.val b) ∧
      (∀ b ∈ Finset.range mb.d1, ∀ s ∈ Finset.range mb.d2, p.1.val b s < utr3.d3) := by
  unfold rescaleChecks at h
  rw [hres] at h
  simp only [if_true] at h
  by_cases h1 : ∀ b ∈ Finset.range mb.d1, mlen.val b = p.2.val b
  · by_cases h2 : ∀ b ∈ Finset.range mb.d1, ∀ s ∈ Finset.range mb.d2, p.1.val b s < utr3.d3
    · exact ⟨h1, h2⟩
    · rw [if_pos h1, if_neg h2] at h
      cases h
  · rw [if_neg h1] at h
    cases h

lemma forwardChecks_ok_rescale {cfg : SeqHREWordGlobalAttention} {src : QueryIn}
    {mb : Tensor3} {mlen : LenVec} {cov : Option Tensor2} {u : UtrIn}
    {p : IdxMat × LenVec} (hres : cfg.seqHRE_attn_rescale = true)
    (h : forwardChecks cfg src mb (some mlen) cov (some u) (some p) = Except.ok ()) :
    (∀ b ∈ Finset.range mb.d1, mlen.val b = p.2.val b) ∧
      (∀ b ∈ Finset.range mb.d1, ∀ s ∈ Finset.range mb.d2, p.1.val b s < (utr3of u).d3) := by
  simp only [forwardChecks] at h
  have h1 := coverChecks_ok (aeqCheck_ok (aeqCheck_ok (aeqCheck_ok (aeqCheck_ok h))))
  have h2 := aeqCheck_ok (aeqCheck_ok (aeqCheck_ok h1))
  exact rescaleChecks_ok hres h2

/-! ## Concrete example inputs used by witnesses and counterexamples -/

/-- Example module: dim 1, dot scoring, softmax, no output projection,
hierarchical rescaling disabled, all weights zero. -/
def exCfg : SeqHREWordGlobalAttention :=
  ⟨1, AttnType.dot, AttnFunc.softmax, false, false,
    fun _ _ => 0, fun _ _ => 0, fun _ _ => 0, fun _ => 0, fun _ => 0,
    fun _ _ => 0, fun _ => 0, fun _ => 0⟩

/-- Example module with hierarchical rescaling enabled. -/
def rsCfg : SeqHREWordGlobalAttention :=
  ⟨1, AttnType.dot, AttnFunc.softmax, false, true,
    fun _ _ => 0, fun _ _ => 0, fun _ _ => 0, fun _ => 0, fun _ => 0,
    fun _ _ => 0, fun _ => 0, fun _ => 0⟩

/-- Example primitives: the constant exponential 1 (positive, so it satisfies
the only property of `exp` the theorems use) and an identity tanh. -/
def exPr : Prims := ⟨fun _ => 1, fun x => x⟩

/-- Example 3D query, shape (1, 1, 1). -/
def exQ : Tensor3 := ⟨1, 1, 1, fun _ _ _ => 0⟩

/-- Example memory bank, shape (1, 2, 1): batch 1, two source positions. -/
def exMB : Tensor3 := ⟨1, 2, 1, fun _ _ _ => 1⟩

/-- Example lengths [1]: one valid source position out of two. -/
def exLen1 : LenVec := ⟨1, fun _ => 1⟩

/-- Example lengths [0]: a fully padded batch element. -/
def exLen0 : LenVec := ⟨1, fun _ => 0⟩

/-- Example coarse alignment with a single unit, shape (1, 1, 1). -/
def exU : Tensor3 := ⟨1, 1, 1, fun _ _ _ => 1⟩

/-- Memory bank of a single source position, shape (1, 1, 1). -/
def cxMB : Tensor3 := ⟨1, 1, 1, fun _ _ _ => 1⟩

/-- Coarse alignment [0, 1] over two units: no mass on unit 0. -/
def cxU : Tensor3 := ⟨1, 1, 2, fun _ _ k => if k = 0 then 0 else 1⟩

/-- Unit assignment mapping the single source word to unit 0, with lengths [1]. -/
def cxWui : IdxMat := ⟨1, 1, fun _ _ => 0⟩

/-- Coarse alignment [9/10, 1/10]: maximal mass on unit 0 (the padding unit). -/
def w3U : Tensor3 := ⟨1, 1, 2, fun _ _ k => if k = 0 then 9/10 else 1/10⟩

/-- Unit assignment over two source positions, both mapped to unit 0 (the
second position is padding, which carries unit 0 by convention). -/
def w3Wui : IdxMat := ⟨1, 2, fun _ _ => 0⟩

/-! ## Claim theorems -/

/-- Claim C1, amended: for every successful call to `forward` whose source
lengths are all at least 1 (and within the bank's extent), every row of the
returned attention distribution is exactly 0 at every masked position and sums
to 1 over the unmasked positions — provided that, when hierarchical rescaling
is enabled, the reweighted row mass (the renormalization denominator of
lines 228-229) is nonzero.  Without that proviso the claim fails; see the
counterexample. -/
theorem forward_align_rows_normalized
    (cfg : SeqHREWordGlobalAttention) (pr : Prims) (src : QueryIn) (mb : Tensor3)
    (mlen : LenVec) (cov : Option Tensor2) (utr : Option UtrIn)
    (ids : Option (IdxMat × LenVec)) (out : FwdOut) (t b : ℕ)
    (he : ∀ x, 0 < pr.exp x)
    (hlen : 1 ≤ mlen.val b) (hbound : mlen.val b ≤ mb.d2)
    (hnz : cfg.seqHRE_attn_rescale = true → ∀ t',
      (∑ j in Finset.range mb.d2,
        alignPre cfg pr (q3of src) (effBank cfg pr mb cov) mlen b t' j *
          gatherUtr (theUtr3 utr) (theIds ids).1 b t' j) ≠ 0)
    (h : forward cfg pr src mb (some mlen) cov utr ids = Except.ok out) :
    (∀ s, mlen.val b ≤ s → out.alignVal t b s = 0) ∧
      (∑ s in validSet mb.d2 (mlen.val b), out.alignVal t b s) = 1 := by
  have hout := forward_ok_result h
  subst hout
  have hd2 : (effBank cfg pr mb cov).d2 = mb.d2 := effBank_d2 cfg pr mb cov
  constructor
  · intro s hs
    rw [forwardResult_alignVal]
    apply alignFull_eq_zero
    show s ∉ validSet (effBank cfg pr mb cov).d2 (mlen.val b)
    intro hmem
    exact absurd (mem_validSet.1 hmem).2 (not_lt.2 hs)
  · have hne : (validSet (effBank cfg pr mb cov).d2 ((theLen (some mlen)).val b)).Nonempty := by
      refine ⟨0, ?_⟩
      rw [hd2]
      exact mem_validSet.2 ⟨lt_of_lt_of_le hlen hbound, hlen⟩
    have hnz' : cfg.seqHRE_attn_rescale = true →
        (∑ j in Finset.range (effBank cfg pr mb cov).d2,
          alignPre cfg pr (q3of src) (effBank cfg pr mb cov) (theLen (some mlen)) b
              (tIdx src t) j *
            gatherUtr (theUtr3 utr) (theIds ids).1 b (tIdx src t) j) ≠ 0 := by
      intro hr
      rw [hd2]
      exact hnz hr (tIdx src t)
    have hsum := alignFull_sum_one cfg pr (q3of src) (effBank cfg pr mb cov)
      (theLen (some mlen)) (theUtr3 utr) (theIds ids) b (tIdx src t) he hne hnz'
    rw [hd2] at hsum
    simp only [forwardResult_alignVal]
    exact hsum

/-- Witness for `forward_align_rows_normalized` at a concrete call: batch 1,
source length 1 of 2 positions, dot scoring, softmax, rescaling disabled. -/
theorem forward_align_rows_normalized_witness :
    (forwardResult exCfg exPr (QueryIn.q3 exQ) exMB (some exLen1) none
        (some (UtrIn.u3 exU)) none).alignVal 0 0 1 = 0 ∧
      (∑ s in validSet exMB.d2 (exLen1.val 0),
        (forwardResult exCfg exPr (QueryIn.q3 exQ) exMB (some exLen1) none
          (some (UtrIn.u3 exU)) none).alignVal 0 0 s) = 1 := by
  have h : forward exCfg exPr (QueryIn.q3 exQ) exMB (some exLen1) none
      (some (UtrIn.u3 exU)) none =
      Except.ok (forwardResult exCfg exPr (QueryIn.q3 exQ) exMB (some exLen1) none
        (some (UtrIn.u3 exU)) none) := rfl
  have hmain := forward_align_rows_normalized exCfg exPr (QueryIn.q3 exQ) exMB exLen1
    none (some (UtrIn.u3 exU)) none _ 0 0 (fun _ => one_pos) (by decide) (by decide)
    (fun hr => absurd hr (by decide)) h
  exact ⟨hmain.1 1 (by decide), hmain.2⟩

/-- Counterexample to claim C1 as stated: a successful rescaling-enabled call
whose source lengths are all 1 (so the claim's precondition holds), yet the
returned attention row sums to 0 — not 1 — over the unmasked positions: the
coarse alignment [0, 1] puts no mass on unit 0, the unit of the only unmasked
word, so every reweighted entry and the renormalization denominator vanish. -/
theorem forward_align_rows_counterexample :
    forward rsCfg exPr (QueryIn.q3 exQ) cxMB (some exLen1) none (some (UtrIn.u3 cxU))
        (some (cxWui, exLen1)) =
      Except.ok (forwardResult rsCfg exPr (QueryIn.q3 exQ) cxMB (some exLen1) none
        (some (UtrIn.u3 cxU)) (some (cxWui, exLen1))) ∧
    1 ≤ exLen1.val 0 ∧
    ¬ ((∑ s in validSet cxMB.d2 (exLen1.val 0),
        (forwardResult rsCfg exPr (QueryIn.q3 exQ) cxMB (some exLen1) none
          (some (UtrIn.u3 cxU)) (some (cxWui, exLen1))).alignVal 0 0 s) = 1) := by
  refine ⟨rfl, by decide, ?_⟩
  have hset : validSet cxMB.d2 (exLen1.val 0) = {0} := by decide
  rw [hset, Finset.sum_singleton, forwardResult_alignVal]
  have hz : alignFull rsCfg exPr (q3of (QueryIn.q3 exQ)) (effBank rsCfg exPr cxMB none)
      (theLen (some exLen1)) (theUtr3 (some (UtrIn.u3 cxU)))
      (theIds (some (cxWui, exLen1))) 0 (tIdx (QueryIn.q3 exQ) 0) 0 = 0 := by
    have hg : gatherUtr (theUtr3 (some (UtrIn.u3 cxU))) (theIds (some (cxWui, exLen1))).1
        0 (tIdx (QueryIn.q3 exQ) 0) 0 = 0 := rfl
    simp only [alignFull]
    rw [if_pos (show rsCfg.seqHRE_attn_rescale = true from rfl)]
    simp only [rescaleAlign, hg, mul_zero, zero_div]
  rw [hz]
  norm_num

/-- Claim C2 (code-bug evaluation): a concrete rescaling-enabled call with a
zero-length element.  The call succeeds; every word-level weight of the
element's row is exactly 0 (the all-masked normalizer output the spec defines,
section 4.3), so every reweighted numerator is 0; and the renormalization
denominator of lines 228-229 is 0 as well.  At this input the program
therefore divides 0 by 0 for every entry of the row: in IEEE float arithmetic
the returned distribution row and the context vector are NaN, not the all-zero
row and zero context the claim (and the spec) require. -/
theorem zero_length_rescale_zero_denominator :
    forward rsCfg exPr (QueryIn.q3 exQ) exMB (some exLen0) none (some (UtrIn.u3 w3U))
        (some (w3Wui, exLen0)) =
      Except.ok (forwardResult rsCfg exPr (QueryIn.q3 exQ) exMB (some exLen0) none
        (some (UtrIn.u3 w3U)) (some (w3Wui, exLen0))) ∧
    exLen0.val 0 = 0 ∧
    alignPre rsCfg exPr exQ (effBank rsCfg exPr exMB none) exLen0 0 0 0 = 0 ∧
    alignPre rsCfg exPr exQ (effBank rsCfg exPr exMB none) exLen0 0 0 1 = 0 ∧
    (∑ j in Finset.range exMB.d2,
      alignPre rsCfg exPr exQ (effBank rsCfg exPr exMB none) exLen0 0 0 j *
        gatherUtr (theUtr3 (some (UtrIn.u3 w3U))) (theIds (some (w3Wui, exLen0))).1
          0 0 j) = 0 := by
  have h0 : ∀ s : ℕ,
      alignPre rsCfg exPr exQ (effBank rsCfg exPr exMB none) exLen0 0 0 s = 0 := by
    intro s
    apply alignPre_eq_zero
    intro hmem
    exact Nat.not_lt_zero s (mem_validSet.1 hmem).2
  refine ⟨rfl, rfl, h0 0, h0 1, ?_⟩
  refine Finset.sum_eq_zero fun j _ => ?_
  rw [h0 j, zero_mul]

/-- Claim C3 (code-bug evaluation): a concrete rescaling-enabled call with
lengths [1] of 2 source positions and coarse alignment [0, 1] — all coarse
mass on unit 1, while both source positions (the valid word and the padding)
belong to unit 0.  The call succeeds; the word-level weight at the padded
position 1 is exactly 0, so the reweighted numerator there is 0; but the
renormalization denominator of lines 228-229 is 0 too, so the program computes
0/0 at the padded position — NaN in IEEE float arithmetic, not the exact 0
the claim asserts for every coarse alignment distribution. -/
theorem padded_rescale_zero_denominator :
    forward rsCfg exPr (QueryIn.q3 exQ) exMB (some exLen1) none (some (UtrIn.u3 cxU))
        (some (w3Wui, exLen1)) =
      Except.ok (forwardResult rsCfg exPr (QueryIn.q3 exQ) exMB (some exLen1) none
        (some (UtrIn.u3 cxU)) (some (w3Wui, exLen1))) ∧
    exLen1.val 0 ≤ 1 ∧
    alignPre rsCfg exPr exQ (effBank rsCfg exPr exMB none) exLen1 0 0 1 = 0 ∧
    (alignPre rsCfg exPr exQ (effBank rsCfg exPr exMB none) exLen1 0 0 1 *
      gatherUtr (theUtr3 (some (UtrIn.u3 cxU))) (theIds (some (w3Wui, exLen1))).1
        0 0 1) = 0 ∧
    (∑ j in Finset.range exMB.d2,
      alignPre rsCfg exPr exQ (effBank rsCfg exPr exMB none) exLen1 0 0 j *
        gatherUtr (theUtr3 (some (UtrIn.u3 cxU))) (theIds (some (w3Wui, exLen1))).1
          0 0 j) = 0 := by
  have hpad : alignPre rsCfg exPr exQ (effBank rsCfg exPr exMB none) exLen1 0 0 1 = 0 := by
    apply alignPre_eq_zero
    intro hmem
    exact absurd (mem_validSet.1 hmem).2 (lt_irrefl 1)
  have hg : ∀ j : ℕ,
      gatherUtr (theUtr3 (some (UtrIn.u3 cxU))) (theIds (some (w3Wui, exLen1))).1
        0 0 j = 0 := fun _ => rfl
  refine ⟨rfl, by decide, hpad, ?_, ?_⟩
  · rw [hpad, zero_mul]
  · exact Finset.sum_eq_zero fun j _ => by rw [hg j, mul_zero]

/-- Uniform coarse alignment over two units, shape (1, 1, 2). -/
def w5U : Tensor3 := ⟨1, 1, 2, fun _ _ _ => 1/2⟩

/-- Unit assignment [0, 1] over two source positions. -/
def w5Wui : IdxMat := ⟨1, 2, fun _ s => if s = 0 then 0 else 1⟩

/-- Example lengths [2]: both source positions valid. -/
def exLen2 : LenVec := ⟨1, fun _ => 2⟩

/-- Example 2D query, shape (1, 1) (one-step mode). -/
def exQ2 : Tensor2 := ⟨1, 1, fun _ _ => 0⟩

/-- Identity weight matrix. -/
def idW : ℕ → ℕ → ℚ := fun i j => if i = j then 1 else 0

/-- Claim C4: with all other inputs fixed, a one-step call (2D query) and a
multi-step call with target length 1 (the same query unsqueezed to 3D) that
both succeed produce numerically identical context vectors and attention
distributions; the modes differ only in output shape. -/
theorem one_step_matches_multi_step
    (cfg : SeqHREWordGlobalAttention) (pr : Prims) (q2 : Tensor2) (mb : Tensor3)
    (mlens : Option LenVec) (cov : Option Tensor2) (utr : Option UtrIn)
    (ids : Option (IdxMat × LenVec)) (o1 o3 : FwdOut)
    (h1 : forward cfg pr (QueryIn.q2 q2) mb mlens cov utr ids = Except.ok o1)
    (h3 : forward cfg pr (QueryIn.q3 ⟨q2.d1, 1, q2.d2, fun b _ d => q2.val b d⟩)
        mb mlens cov utr ids = Except.ok o3) :
    (∀ b d, o1.cVal 0 b d = o3.cVal 0 b d) ∧
      (∀ b s, o1.alignVal 0 b s = o3.alignVal 0 b s) := by
  have e1 := forward_ok_result h1
  have e3 := forward_ok_result h3
  subst e1
  subst e3
  constructor
  · intro b d
    rw [forwardResult_cVal, forwardResult_cVal]
    rfl
  · intro b s
    rw [forwardResult_alignVal, forwardResult_alignVal]
    rfl

/-- Witness for `one_step_matches_multi_step` at a concrete call. -/
theorem one_step_matches_multi_step_witness :
    ((forwardResult exCfg exPr (QueryIn.q2 exQ2) exMB (some exLen1) none
        (some (UtrIn.u3 exU)) none).cVal 0 0 0 =
      (forwardResult exCfg exPr
        (QueryIn.q3 ⟨exQ2.d1, 1, exQ2.d2, fun b _ d => exQ2.val b d⟩) exMB (some exLen1)
        none (some (UtrIn.u3 exU)) none).cVal 0 0 0) ∧
    ((forwardResult exCfg exPr (QueryIn.q2 exQ2) exMB (some exLen1) none
        (some (UtrIn.u3 exU)) none).alignVal 0 0 0 =
      (forwardResult exCfg exPr
        (QueryIn.q3 ⟨exQ2.d1, 1, exQ2.d2, fun b _ d => exQ2.val b d⟩) exMB (some exLen1)
        none (some (UtrIn.u3 exU)) none).alignVal 0 0 0) := by
  have hmain := one_step_matches_multi_step exCfg exPr exQ2 exMB (some exLen1) none
    (some (UtrIn.u3 exU)) none _ _ rfl rfl
  exact ⟨hmain.1 0 0, hmain.2 0 0⟩

/-- Claim C5: in a successful rescaling-enabled call whose coarse alignment is
uniform (every entry 1/num_units), the relative ordering of the word-level
weights within a row is unchanged by the multiply-and-renormalize step: for
any two in-range positions i, j, the pre-rescaling weight at i is at most that
at j iff the returned weight at i is at most that at j. -/
theorem uniform_rescale_order_preserved
    (cfg : SeqHREWordGlobalAttention) (pr : Prims) (q mb : Tensor3) (mlen : LenVec)
    (cov : Option Tensor2) (u : UtrIn) (wui : IdxMat) (mlen2 : LenVec) (out : FwdOut)
    (b t i j : ℕ)
    (he : ∀ x, 0 < pr.exp x)
    (hres : cfg.seqHRE_attn_rescale = true)
    (hb : b < mb.d1) (hi : i < mb.d2) (hj : j < mb.d2)
    (huni : ∀ t' k, k < (utr3of u).d3 →
      (utr3of u).val b t' k = 1 / ((utr3of u).d3 : ℚ))
    (h : forward cfg pr (QueryIn.q3 q) mb (some mlen) cov (some u)
        (some (wui, mlen2)) = Except.ok out) :
    (alignPre cfg pr q (effBank cfg pr mb cov) mlen b t i ≤
        alignPre cfg pr q (effBank cfg pr mb cov) mlen b t j ↔
      out.alignVal t b i ≤ out.alignVal t b j) := by
  have hchk := forward_ok_checks h
  have hfacts := forwardChecks_ok_rescale hres hchk
  have hout := forward_ok_result h
  subst hout
  rw [forwardResult_alignVal, forwardResult_alignVal]
  simp only [q3of, theLen]
  have hd2 : (effBank cfg pr mb cov).d2 = mb.d2 := effBank_d2 cfg pr mb cov
  have hdpos : 0 < (utr3of u).d3 :=
    lt_of_le_of_lt (Nat.zero_le _)
      (hfacts.2 b (Finset.mem_range.2 hb) i (Finset.mem_range.2 hi))
  have hmpos : (0:ℚ) < ((utr3of u).d3 : ℚ) := by exact_mod_cast hdpos
  simp only [tIdx, alignFull]
  rw [if_pos hres, if_pos hres]
  simp only [rescaleAlign]
  rw [hd2]
  have hgid : ∀ t' s, s < mb.d2 →
      gatherUtr (theUtr3 (some u)) (theIds (some (wui, mlen2))).1 b t' s =
        1 / ((utr3of u).d3 : ℚ) := by
    intro t' s hs
    exact huni t' _ (hfacts.2 b (Finset.mem_range.2 hb) s (Finset.mem_range.2 hs))
  rw [hgid t i hi, hgid t j hj]
  have hN : (∑ s in Finset.range mb.d2,
      alignPre cfg pr q (effBank cfg pr mb cov) mlen b t s *
        gatherUtr (theUtr3 (some u)) (theIds (some (wui, mlen2))).1 b t s) =
      (∑ s in Finset.range mb.d2,
        alignPre cfg pr q (effBank cfg pr mb cov) mlen b t s) *
        (1 / ((utr3of u).d3 : ℚ)) := by
    rw [Finset.sum_mul]
    exact Finset.sum_congr rfl fun s hs => by rw [hgid t s (Finset.mem_range.1 hs)]
  rw [hN]
  have hT0 : 0 ≤ ∑ s in Finset.range mb.d2,
      alignPre cfg pr q (effBank cfg pr mb cov) mlen b t s :=
    Finset.sum_nonneg fun s _ => alignPre_nonneg cfg pr q (effBank cfg pr mb cov) mlen b t s he
  rcases eq_or_lt_of_le hT0 with hT | hT
  · have hall := (Finset.sum_eq_zero_iff_of_nonneg fun s _ =>
      alignPre_nonneg cfg pr q (effBank cfg pr mb cov) mlen b t s he).1 hT.symm
    rw [hall i (Finset.mem_range.2 hi), hall j (Finset.mem_range.2 hj)]
    simp
  · have hinv : (0:ℚ) < 1 / ((utr3of u).d3 : ℚ) := by positivity
    rw [div_le_div_iff_of_pos_right (mul_pos hT hinv), mul_le_mul_right hinv]

/-- Witness for `uniform_rescale_order_preserved`: uniform coarse distribution
[1/2, 1/2], unit assignment [0, 1], both source positions valid. -/
theorem uniform_rescale_order_preserved_witness :
    (alignPre rsCfg exPr exQ (effBank rsCfg exPr exMB none) exLen2 0 0 0 ≤
        alignPre rsCfg exPr exQ (effBank rsCfg exPr exMB none) exLen2 0 0 1 ↔
      (forwardResult rsCfg exPr (QueryIn.q3 exQ) exMB (some exLen2) none
          (some (UtrIn.u3 w5U)) (some (w5Wui, exLen2))).alignVal 0 0 0 ≤
        (forwardResult rsCfg exPr (QueryIn.q3 exQ) exMB (some exLen2) none
          (some (UtrIn.u3 w5U)) (some (w5Wui, exLen2))).alignVal 0 0 1) := by
  refine uniform_rescale_order_preserved rsCfg exPr exQ exMB exLen2 none
    (UtrIn.u3 w5U) w5Wui exLen2 _ 0 0 0 1 (fun _ => one_pos) (by decide)
    (by decide) (by decide) (by decide) ?_ rfl
  intro t' k hk
  show (1:ℚ)/2 = 1 / ((2:ℕ) : ℚ)
  norm_num

/-- Claim C6: with the learned `linear_in` transform equal to the identity
matrix, the raw scores of the `general` strategy coincide exactly with those of
the `dot` strategy on the same inputs (exact rational semantics). -/
theorem general_identity_eq_dot
    (dim : ℕ) (af : AttnFunc) (oh hre : Bool)
    (lin lctx lqw : ℕ → ℕ → ℚ) (lqb vv : ℕ → ℚ) (low : ℕ → ℕ → ℚ) (lob lcov : ℕ → ℚ)
    (pr : Prims) (h_t h_s : Tensor3) (b t s : ℕ)
    (hid : ∀ i j, lin i j = if i = j then 1 else 0) :
    score ⟨dim, AttnType.general, af, oh, hre, lin, lctx, lqw, lqb, vv, low, lob, lcov⟩
        pr h_t h_s b t s =
      score ⟨dim, AttnType.dot, af, oh, hre, lin, lctx, lqw, lqb, vv, low, lob, lcov⟩
        pr h_t h_s b t s := by
  simp only [score]
  refine Finset.sum_congr rfl fun d hd => ?_
  congr 1
  have hrw : ∀ k, lin d k * h_t.val b t k = if d = k then h_t.val b t k else 0 := by
    intro k
    rw [hid d k]
    split
    · rw [one_mul]
    · rw [zero_mul]
  rw [Finset.sum_congr rfl fun k _ => hrw k, Finset.sum_ite_eq, if_pos hd]

/-- Witness for `general_identity_eq_dot` at a concrete input. -/
theorem general_identity_eq_dot_witness :
    score ⟨1, AttnType.general, AttnFunc.softmax, false, false, idW, fun _ _ => 0,
        fun _ _ => 0, fun _ => 0, fun _ => 0, fun _ _ => 0, fun _ => 0, fun _ => 0⟩
        exPr exQ exMB 0 0 0 =
      score ⟨1, AttnType.dot, AttnFunc.softmax, false, false, idW, fun _ _ => 0,
        fun _ _ => 0, fun _ => 0, fun _ => 0, fun _ _ => 0, fun _ => 0, fun _ => 0⟩
        exPr exQ exMB 0 0 0 :=
  general_identity_eq_dot 1 AttnFunc.softmax false false idW (fun _ _ => 0)
    (fun _ _ => 0) (fun _ => 0) (fun _ => 0) (fun _ _ => 0) (fun _ => 0) (fun _ => 0)
    exPr exQ exMB 0 0 0 (fun _ _ => rfl)

/-- Query of feature dimension 4, shape (1, 1, 4). -/
def w8Q : Tensor3 := ⟨1, 1, 4, fun _ _ _ => 0⟩

/-- Memory bank of feature dimension 5, shape (1, 1, 5). -/
def w8MB : Tensor3 := ⟨1, 1, 5, fun _ _ _ => 0⟩

/-- Module with a nonzero coverage projection weight. -/
def cvCfg : SeqHREWordGlobalAttention :=
  ⟨1, AttnType.dot, AttnFunc.softmax, false, false,
    fun _ _ => 0, fun _ _ => 0, fun _ _ => 0, fun _ => 0, fun _ => 0,
    fun _ _ => 0, fun _ => 0, fun _ => 1⟩

/-- Coverage accumulator of shape (1, 2), matching `exMB`. -/
def cvW : Tensor2 := ⟨1, 2, fun _ _ => 1⟩

/-- Claim C7: every call to `forward` requires a non-None `utr_align_vectors`
and non-None `memory_lengths`; with either absent the call fails fatally and
never returns normally, for every configuration — including configurations
with hierarchical rescaling disabled. -/
theorem missing_inputs_fail
    (cfg : SeqHREWordGlobalAttention) (pr : Prims) (src : QueryIn) (mb : Tensor3)
    (mlens : Option LenVec) (cov : Option Tensor2) (utr : Option UtrIn)
    (ids : Option (IdxMat × LenVec)) :
    isErr (forward cfg pr src mb mlens cov none ids) = true ∧
      isErr (forward cfg pr src mb none cov utr ids) = true := by
  constructor
  · rfl
  · cases utr with
    | none => rfl
    | some u =>
        simp only [forward, forwardChecks, aeqCheck]
        split_ifs <;> rfl

/-- Claim C8: with `utr_align_vectors` supplied, a call whose inputs disagree
in feature dimension, batch size, or target length fails with a shape-mismatch
error that reports the compared values (two of which differ); the failing
`aeq` checks run before any numeric score computation in `forward`. -/
theorem shape_mismatch_fails
    (cfg : SeqHREWordGlobalAttention) (pr : Prims) (src : QueryIn) (mb : Tensor3)
    (mlens : Option LenVec) (cov : Option Tensor2) (u : UtrIn)
    (ids : Option (IdxMat × LenVec))
    (hmm : mb.d3 ≠ (q3of src).d3 ∨ mb.d1 ≠ (q3of src).d1 ∨ mb.d1 ≠ (utr3of u).d1 ∨
      (q3of src).d2 ≠ (utr3of u).d2) :
    ∃ vs, forward cfg pr src mb mlens cov (some u) ids =
        Except.error (AttnErr.shapeMismatch vs) ∧ ∃ x ∈ vs, ∃ y ∈ vs, x ≠ y := by
  by_cases h1 : allEqList [mb.d1, (q3of src).d1, (utr3of u).d1] = true
  · by_cases h2 : allEqList [mb.d3, (q3of src).d3] = true
    · by_cases h3 : allEqList [cfg.dim, mb.d3] = true
      · by_cases h4 : allEqList [(q3of src).d2, (utr3of u).d2] = true
        · exfalso
          obtain ⟨e1, e2⟩ := allEqList_three.1 h1
          have e3 := allEqList_two.1 h2
          have e4 := allEqList_two.1 h4
          rcases hmm with hc | hc | hc | hc
          · exact hc e3
          · exact hc e1
          · exact hc e2
          · exact hc e4
        · refine ⟨[(q3of src).d2, (utr3of u).d2], ?_,
            allEqList_false_pair (Bool.eq_false_iff.2 h4)⟩
          simp only [forward, forwardChecks, aeqCheck]
          rw [if_pos h1, if_pos h2, if_pos h3, if_neg h4]
      · refine ⟨[cfg.dim, mb.d3], ?_, allEqList_false_pair (Bool.eq_false_iff.2 h3)⟩
        simp only [forward, forwardChecks, aeqCheck]
        rw [if_pos h1, if_pos h2, if_neg h3]
    · refine ⟨[mb.d3, (q3of src).d3], ?_, allEqList_false_pair (Bool.eq_false_iff.2 h2)⟩
      simp only [forward, forwardChecks, aeqCheck]
      rw [if_pos h1, if_neg h2]
  · refine ⟨[mb.d1, (q3of src).d1, (utr3of u).d1], ?_,
      allEqList_false_pair (Bool.eq_false_iff.2 h1)⟩
    simp only [forward, forwardChecks, aeqCheck]
    rw [if_neg h1]

/-- Witness for `shape_mismatch_fails`: the spec's example, query feature
dimension 4 against source feature dimension 5. -/
theorem shape_mismatch_fails_witness :
    ∃ vs, forward exCfg exPr (QueryIn.q3 w8Q) w8MB (some exLen1) none
        (some (UtrIn.u3 exU)) none = Except.error (AttnErr.shapeMismatch vs) ∧
      ∃ x ∈ vs, ∃ y ∈ vs, x ≠ y :=
  shape_mismatch_fails exCfg exPr (QueryIn.q3 w8Q) w8MB (some exLen1) none
    (UtrIn.u3 exU) none (Or.inl (by decide))

/-- Claim C9: in a rescaling-enabled, otherwise well-shaped call, if the length
vector carried in `src_word_utr_ids` differs in any element from
`memory_lengths`, the call fails with the fatal consistency error, so no
rescaled distribution is produced. -/
theorem inconsistent_lengths_fail
    (cfg : SeqHREWordGlobalAttention) (pr : Prims) (src : QueryIn) (mb : Tensor3)
    (mlen : LenVec) (u : UtrIn) (wui : IdxMat) (mlen2 : LenVec)
    (hres : cfg.seqHRE_attn_rescale = true)
    (hb1 : mb.d1 = (q3of src).d1) (hb2 : mb.d1 = (utr3of u).d1)
    (hd : mb.d3 = (q3of src).d3) (hcd : cfg.dim = mb.d3)
    (ht : (q3of src).d2 = (utr3of u).d2)
    (hne : ∃ b ∈ Finset.range mb.d1, mlen.val b ≠ (wui, mlen2).2.val b) :
    forward cfg pr src mb (some mlen) none (some u) (some (wui, mlen2)) =
      Except.error AttnErr.inconsistentLengths := by
  have g1 : allEqList [mb.d1, (q3of src).d1, (utr3of u).d1] = true :=
    allEqList_three.2 ⟨hb1, hb2⟩
  have g1b : allEqList [mb.d1, (q3of src).d1] = true := allEqList_two.2 hb1
  have g2 : allEqList [mb.d3, (q3of src).d3] = true := allEqList_two.2 hd
  have g3 : allEqList [cfg.dim, mb.d3] = true := allEqList_two.2 hcd
  have g4 : allEqList [(q3of src).d2, (utr3of u).d2] = true := allEqList_two.2 ht
  have hnall : ¬ ∀ b ∈ Finset.range mb.d1, mlen.val b = (wui, mlen2).2.val b := by
    obtain ⟨b, hbm, hbne⟩ := hne
    exact fun hall => hbne (hall b hbm)
  simp only [forward, forwardChecks, aeqCheck, coverChecks, rescaleChecks]
  rw [if_pos g1, if_pos g2, if_pos g3, if_pos g4, if_pos g1b, if_pos g2, if_pos g3,
    if_pos hres, if_neg hnall]

/-- Witness for `inconsistent_lengths_fail`: lengths [2] supplied to forward
against lengths [1] carried in the unit assignment. -/
theorem inconsistent_lengths_fail_witness :
    forward rsCfg exPr (QueryIn.q3 exQ) exMB (some exLen2) none (some (UtrIn.u3 exU))
        (some (w3Wui, exLen1)) = Except.error AttnErr.inconsistentLengths :=
  inconsistent_lengths_fail rsCfg exPr (QueryIn.q3 exQ) exMB exLen2 (UtrIn.u3 exU)
    w3Wui exLen1 (by decide) (by decide) (by decide) (by decide) (by decide)
    (by decide) ⟨0, by decide, by decide⟩

/-- Claim C10: with a coverage accumulator supplied, a successful call leaves
the caller's `memory_bank` buffer equal to the original bank plus the
`linear_cover` projection of the coverage (the in-place `+=` of line 194), and
the context sum scores against `tanh` of that updated bank; with no coverage
supplied, the caller's buffer is returned unchanged. -/
theorem coverage_updates_bank
    (cfg : SeqHREWordGlobalAttention) (pr : Prims) (src : QueryIn) (mb : Tensor3)
    (mlens : Option LenVec) (utr : Option UtrIn) (ids : Option (IdxMat × LenVec))
    (cv : Tensor2) :
    (∀ out, forward cfg pr src mb mlens (some cv) utr ids = Except.ok out →
      (∀ b s d, out.bankVal b s d = mb.val b s d + cfg.linear_cover d * cv.val b s) ∧
      (∀ t b d, out.cVal t b d = ∑ s in Finset.range mb.d2,
        out.alignVal t b s * pr.tanh (mb.val b s d + cfg.linear_cover d * cv.val b s))) ∧
    (∀ out, forward cfg pr src mb mlens none utr ids = Except.ok out →
      ∀ b s d, out.bankVal b s d = mb.val b s d) := by
  constructor
  · intro out hok
    have hout := forward_ok_result hok
    subst hout
    constructor
    · intro b s d
      rw [forwardResult_bankVal]
      rfl
    · intro t b d
      rw [forwardResult_cVal]
      simp only [forwardResult_alignVal]
      rfl
  · intro out hok
    have hout := forward_ok_result hok
    subst hout
    intro b s d
    rw [forwardResult_bankVal]
    rfl

/-- Witness for `coverage_updates_bank` at a concrete call with coverage
accumulator all-ones and coverage weight 1, and at the same call without
coverage. -/
theorem coverage_updates_bank_witness :
    ((forwardResult cvCfg exPr (QueryIn.q3 exQ) exMB (some exLen1) (some cvW)
        (some (UtrIn.u3 exU)) none).bankVal 0 0 0 =
      exMB.val 0 0 0 + cvCfg.linear_cover 0 * cvW.val 0 0) ∧
    ((forwardResult cvCfg exPr (QueryIn.q3 exQ) exMB (some exLen1) (some cvW)
        (some (UtrIn.u3 exU)) none).cVal 0 0 0 =
      ∑ s in Finset.range exMB.d2,
        (forwardResult cvCfg exPr (QueryIn.q3 exQ) exMB (some exLen1) (some cvW)
          (some (UtrIn.u3 exU)) none).alignVal 0 0 s *
          exPr.tanh (exMB.val 0 s 0 + cvCfg.linear_cover 0 * cvW.val 0 s)) ∧
    ((forwardResult cvCfg exPr (QueryIn.q3 exQ) exMB (some exLen1) none
        (some (UtrIn.u3 exU)) none).bankVal 0 0 0 = exMB.val 0 0 0) := by
  have h := coverage_updates_bank cvCfg exPr (QueryIn.q3 exQ) exMB (some exLen1)
    (some (UtrIn.u3 exU)) none cvW
  exact ⟨(h.1 _ rfl).1 0 0 0, (h.1 _ rfl).2 0 0 0, h.2 _ rfl 0 0 0⟩
